import Mathlib

/-!
Verification of the text-datasets repository: the concurrent
generation-and-validation core (`src/generate.py`) and the XES exporter
(`src/xes.py`), shallowly embedded in Lean 4.
-/

set_option maxRecDepth 4000

namespace TextDatasets

/-! ## JSON values

Tagged value type for dynamically typed JSON documents, as produced by
Python's `json.loads` in `generate.py` and `xes.py`.  Numbers are
restricted to the integer numerals actually used by the repository's
schemas and artifacts. -/

inductive Json where
  | null : Json
  | bool : Bool → Json
  | num : Int → Json
  | str : String → Json
  | arr : List Json → Json
  | obj : List (String × Json) → Json

/-- First-match lookup in an association list (Python `d[k]` / `d.get(k)`
for dicts, whose keys are unique). -/
def lookupA {α : Type} : List (String × α) → String → Option α
  | [], _ => none
  | (k, v) :: rest, key => if k = key then some v else lookupA rest key

/-- Python `d[k] = v`: replace the value at an existing key, else append. -/
def setKey {α : Type} : List (String × α) → String → α → List (String × α)
  | [], key, v => [(key, v)]
  | (k, w) :: rest, key, v =>
      if k = key then (k, v) :: rest else (k, w) :: setKey rest key v

/-- Python `d.pop(k)` (the removal part). -/
def removeKey {α : Type} : List (String × α) → String → List (String × α)
  | [], _ => []
  | (k, w) :: rest, key =>
      if k = key then rest else (k, w) :: removeKey rest key

/-! ## JSON text decoding

Embedding of `json.loads` (the decode stage of the worker loop,
`generate.py` line 97) on the subset of JSON used by the repository:
objects, arrays, strings with simple escapes, integer numerals,
`true`/`false`/`null`. -/

/-- JSON insignificant whitespace. -/
def skipWs : List Char → List Char
  | c :: cs =>
      if c = ' ' ∨ c = '\t' ∨ c = '\n' ∨ c = '\r' then skipWs cs else c :: cs
  | [] => []

/-- Parse a run of decimal digits into a natural number. -/
def parseDigits : List Char → Nat → Option (Nat × List Char)
  | c :: cs, acc =>
      if c.isDigit then
        match parseDigits cs (acc * 10 + (c.toNat - 48)) with
        | some r => some r
        | none => some (acc * 10 + (c.toNat - 48), cs)
      else none
  | [], _ => none

/-- Body of a JSON string after the opening quote; handles the simple
escape sequences. -/
def parseStringBody : List Char → List Char → Option (String × List Char)
  | acc, '"' :: rest => some (String.mk acc.reverse, rest)
  | acc, '\\' :: e :: rest =>
      match e with
      | '"' => parseStringBody ('"' :: acc) rest
      | '\\' => parseStringBody ('\\' :: acc) rest
      | '/' => parseStringBody ('/' :: acc) rest
      | 'n' => parseStringBody ('\n' :: acc) rest
      | 't' => parseStringBody ('\t' :: acc) rest
      | 'r' => parseStringBody ('\r' :: acc) rest
      | _ => none
  | acc, c :: rest => if c = '\\' then none else parseStringBody (c :: acc) rest
  | _, [] => none

mutual

/-- Parse one JSON value.  The fuel argument bounds nesting and element
count; the toplevel wrapper supplies more than enough. -/
def parseValue : Nat → List Char → Option (Json × List Char)
  | 0, _ => none
  | fuel + 1, cs =>
      match skipWs cs with
      | 'n' :: 'u' :: 'l' :: 'l' :: rest => some (.null, rest)
      | 't' :: 'r' :: 'u' :: 'e' :: rest => some (.bool true, rest)
      | 'f' :: 'a' :: 'l' :: 's' :: 'e' :: rest => some (.bool false, rest)
      | '"' :: rest =>
          match parseStringBody [] rest with
          | some (s, r) => some (.str s, r)
          | none => none
      | '[' :: rest =>
          match skipWs rest with
          | ']' :: r => some (.arr [], r)
          | other => parseElems fuel other []
      | '{' :: rest =>
          match skipWs rest with
          | '}' :: r => some (.obj [], r)
          | other => parseMembers fuel other []
      | '-' :: rest =>
          match parseDigits rest 0 with
          | some (n, r) =>
              match r with
              | '.' :: _ => none
              | 'e' :: _ => none
              | 'E' :: _ => none
              | _ => some (.num (-(n : Int)), r)
          | none => none
      | c :: rest =>
          if c.isDigit then
            match parseDigits (c :: rest) 0 with
            | some (n, r) =>
                match r with
                | '.' :: _ => none
                | 'e' :: _ => none
                | 'E' :: _ => none
                | _ => some (.num (n : Int), r)
            | none => none
          else none
      | [] => none

/-- Parse the elements of a non-empty JSON array. -/
def parseElems : Nat → List Char → List Json → Option (Json × List Char)
  | 0, _, _ => none
  | fuel + 1, cs, acc =>
      match parseValue fuel cs with
      | some (v, rest) =>
          match skipWs rest with
          | ',' :: r => parseElems fuel r (acc ++ [v])
          | ']' :: r => some (.arr (acc ++ [v]), r)
          | _ => none
      | none => none

/-- Parse the members of a non-empty JSON object.  A duplicated key keeps
the last value, as Python dicts do. -/
def parseMembers : Nat → List Char → List (String × Json) →
    Option (Json × List Char)
  | 0, _, _ => none
  | fuel + 1, cs, acc =>
      match skipWs cs with
      | '"' :: rest =>
          match parseStringBody [] rest with
          | some (key, r1) =>
              match skipWs r1 with
              | ':' :: r2 =>
                  match parseValue fuel r2 with
                  | some (v, r3) =>
                      match skipWs r3 with
                      | ',' :: r4 => parseMembers fuel r4 (setKey acc key v)
                      | '}' :: r4 => some (.obj (setKey acc key v), r4)
                      | _ => none
                  | none => none
              | _ => none
          | none => none
      | _ => none

end

/-- Embedding of `json.loads`: decode a whole string as one JSON document,
requiring only trailing whitespace after the value. -/
def parseJson (s : String) : Option Json :=
  match parseValue (s.toList.length + 1) s.toList with
  | some (v, rest) =>
      match skipWs rest with
      | [] => some v
      | _ => none
  | none => none

/-! ## Schema validation

Modelled from the spec: the Schema Validator (`jsonschema.validate`,
imported but not part of this repository's sources) is described in
spec §4.1 as a pure structural check supporting required properties,
type checks and nested objects/arrays — exactly the subset the process
definitions use.  A schema keyword that is absent imposes no constraint. -/

/-- JSON Schema `type` keyword check. -/
def jsonTypeOk (t : String) (v : Json) : Bool :=
  match v with
  | .obj _ => t == "object"
  | .arr _ => t == "array"
  | .str _ => t == "string"
  | .num _ => t == "integer" || t == "number"
  | .bool _ => t == "boolean"
  | .null => t == "null"

/-- The `required` keyword: every listed key must be present in an object
instance; non-object instances are unconstrained. -/
def requiredOk (req : List Json) (v : Json) : Bool :=
  match v with
  | .obj fields =>
      req.all fun r =>
        match r with
        | .str k => (lookupA fields k).isSome
        | _ => true
  | _ => true

/-- Recursive structural validation with fuel (the wrapper supplies the
schema's size, which is ample). -/
def validateFuel : Nat → Json → Json → Bool
  | 0, _, _ => true
  | fuel + 1, .obj kvs, v =>
      (match lookupA kvs "type" with
        | some (.str t) => jsonTypeOk t v
        | _ => true) &&
      (match lookupA kvs "required" with
        | some (.arr req) => requiredOk req v
        | _ => true) &&
      (match lookupA kvs "properties", v with
        | some (.obj props), .obj fields =>
            props.all fun p =>
              match lookupA fields p.1 with
              | some fv => validateFuel fuel p.2 fv
              | none => true
        | _, _ => true)
  | _ + 1, _, _ => true

mutual

/-- Size of a JSON value, used as recursion fuel for the validator. -/
def Json.size : Json → Nat
  | .null => 1
  | .bool _ => 1
  | .num _ => 1
  | .str _ => 1
  | .arr xs => Json.sizeList xs + 1
  | .obj kvs => Json.sizeObj kvs + 1

def Json.sizeList : List Json → Nat
  | [] => 0
  | x :: xs => Json.size x + Json.sizeList xs

def Json.sizeObj : List (String × Json) → Nat
  | [] => 0
  | (_, v) :: kvs => Json.size v + Json.sizeObj kvs

end

/-- Full check `validate(instance, schema)`: `true` means ok, `false`
means a `SchemaViolation`. -/
def validateJson (schema v : Json) : Bool :=
  validateFuel schema.size schema v

/-! ## The worker's decode-then-validate stage

`generate.py` lines 95‑101: `json.loads(content)` runs first; only if it
succeeds is `validate` invoked. -/

inductive VError where
  | decodeError : VError
  | schemaViolation : VError
  deriving DecidableEq, Repr

/-- One candidate through the validation stage of a worker iteration. -/
def checkCandidate (schema : Json) (content : String) : Except VError Json :=
  match parseJson content with
  | none => .error .decodeError
  | some d => if validateJson schema d then .ok d else .error .schemaViolation

/-- The schema used by the spec's validation test, as a parsed document. -/
def schemaC5 : Json :=
  Json.obj [("type", Json.str "object"), ("required", Json.arr [Json.str "x"]),
    ("properties", Json.obj [("x", Json.obj [("type", Json.str "integer")])])]

/-- C5: for the schema `{"type":"object","required":["x"],"properties":{"x":{"type":"integer"}}}`,
candidate text `{"x": 5}` passes the validation stage, `{"y": 5}` is
rejected as a schema violation, and `not json` is rejected at the JSON
decode stage — for every schema, since decoding strictly precedes
validation in each worker iteration. -/
theorem validation_stage_results :
    parseJson "\x7b\"type\":\"object\",\"required\":[\"x\"],\"properties\":\x7b\"x\":\x7b\"type\":\"integer\"\x7d\x7d\x7d"
      = some schemaC5
    ∧ checkCandidate schemaC5 "\x7b\"x\": 5\x7d" = Except.ok (Json.obj [("x", Json.num 5)])
    ∧ checkCandidate schemaC5 "\x7b\"y\": 5\x7d" = Except.error VError.schemaViolation
    ∧ parseJson "not json" = none
    ∧ (∀ schema : Json,
        checkCandidate schema "not json" = Except.error VError.decodeError) :=
  ⟨rfl, rfl, rfl, rfl, fun _ => rfl⟩

/-! ## The Generation Client

Embedding of `call_openai` (`generate.py` lines 54–67) together with the
envelope-field extraction the worker performs on its result (line 90).
The network is abstracted as the outcome of the single `requests.post`
round-trip: either a connection failure or a response with an HTTP
status code and a body. -/

inductive NetResult where
  | connError : NetResult
  | response : Nat → String → NetResult

inductive RequestError where
  | connectionFailure : RequestError
  | httpStatus : Nat → RequestError
  | badBody : RequestError
  | missingField : RequestError
  deriving DecidableEq, Repr

/-- Python `str.strip()` on ASCII whitespace. -/
def isPySpace (c : Char) : Bool :=
  c = ' ' || c = '\t' || c = '\n' || c = '\r' || c = '\x0b' || c = '\x0c'

def stripStr (s : String) : String :=
  String.mk (((s.toList.dropWhile isPySpace).reverse.dropWhile isPySpace).reverse)

/-- One call: `requests.post`, `resp.raise_for_status()` (which raises
exactly for status codes 400–599), then `resp.json()`. -/
def call_openai (net : NetResult) : Except RequestError Json :=
  match net with
  | .connError => .error .connectionFailure
  | .response status body =>
      if 400 ≤ status ∧ status < 600 then .error (.httpStatus status)
      else
        match parseJson body with
        | some j => .ok j
        | none => .error .badBody

/-- The worker's envelope access `result['choices'][0]['message']['content'].strip()`;
any shape mismatch raises and is treated as a request error. -/
def extractContent (j : Json) : Option String :=
  match j with
  | .obj kvs =>
      match lookupA kvs "choices" with
      | some (.arr (c0 :: _)) =>
          match c0 with
          | .obj ckvs =>
              match lookupA ckvs "message" with
              | some (.obj mkvs) =>
                  match lookupA mkvs "content" with
                  | some (.str s) => some (stripStr s)
                  | _ => none
              | _ => none
          | _ => none
      | _ => none
  | _ => none

/-- The whole request stage of one worker iteration (`generate.py`
lines 88–93). -/
def clientCall (net : NetResult) : Except RequestError String :=
  match call_openai net with
  | .error e => .error e
  | .ok j =>
      match extractContent j with
      | some s => .ok s
      | none => .error .missingField

/-- A client invocation against a queue of pending network outcomes:
it consumes exactly the first one and leaves the rest untouched (no
internal retry). -/
def clientOnScript (script : List NetResult) :
    Option (Except RequestError String × List NetResult) :=
  match script with
  | [] => none
  | r :: rest => some (clientCall r, rest)

/-- C8 (counterexample): a response whose HTTP status is 300 — outside
the 2xx success class — but whose body is a well-formed envelope is not
rejected: `raise_for_status` only raises for statuses 400–599, so the
call returns the content text instead of failing. -/
theorem client_nonsuccess_status_accepted :
    clientCall (NetResult.response 300
        "\x7b\"choices\": [\x7b\"message\": \x7b\"content\": \"ok\"\x7d\x7d]\x7d")
      = Except.ok "ok"
    ∧ ¬ (200 ≤ 300 ∧ 300 ≤ 299) :=
  ⟨rfl, by decide⟩

/-- C8 (amended): the Generation Client performs exactly one network
round-trip per call with no internal retry, fails with a `RequestError`
on connection failure, on HTTP status 400–599, or on a response envelope
missing the expected fields, and never substitutes text for a failed
call: it returns text only when the envelope actually carries it. -/
theorem client_contract (net : NetResult) :
    (net = NetResult.connError →
      clientCall net = Except.error RequestError.connectionFailure)
    ∧ (∀ st body, net = NetResult.response st body → 400 ≤ st → st < 600 →
        clientCall net = Except.error (RequestError.httpStatus st))
    ∧ (∀ t, clientCall net = Except.ok t →
        ∃ st body j, net = NetResult.response st body
          ∧ ¬ (400 ≤ st ∧ st < 600)
          ∧ parseJson body = some j ∧ extractContent j = some t)
    ∧ (∀ rest, clientOnScript (net :: rest) = some (clientCall net, rest))
    ∧ clientOnScript ([] : List NetResult) = none := by
  refine ⟨?_, ?_, ?_, fun _ => rfl, rfl⟩
  · intro h; subst h; rfl
  · intro st body h h4 h6; subst h
    simp only [clientCall, call_openai]
    rw [if_pos ⟨h4, h6⟩]
  · intro t h
    cases net with
    | connError => simp [clientCall, call_openai] at h
    | response st body =>
        refine ⟨st, body, ?_⟩
        simp only [clientCall, call_openai] at h
        by_cases hs : 400 ≤ st ∧ st < 600
        · rw [if_pos hs] at h; simp at h
        · rw [if_neg hs] at h
          cases hj : parseJson body with
          | none => rw [hj] at h; simp at h
          | some j =>
              rw [hj] at h
              dsimp only at h
              cases he : extractContent j with
              | none => rw [he] at h; simp at h
              | some s =>
                  rw [he] at h
                  cases h
                  exact ⟨j, rfl, hs, rfl, he⟩

/-- Concrete instantiation of the client contract. -/
theorem client_contract_witness :
    clientCall NetResult.connError = Except.error RequestError.connectionFailure
    ∧ clientCall (NetResult.response 500 "oops")
        = Except.error (RequestError.httpStatus 500) :=
  ⟨(client_contract NetResult.connError).1 rfl,
   (client_contract (NetResult.response 500 "oops")).2.1 500 "oops" rfl
     (by decide) (by decide)⟩

/-! ## The Pool Coordinator's startup logic

Embedding of `main` (`generate.py` lines 140–161): count pre-existing
artifact files, return immediately when the target is already met,
otherwise launch `min(MAX_THREADS, total - existing)` worker threads
over one shared counter initialised to `existing`. -/

def MAX_THREADS : Nat := 30

inductive StartDecision where
  | noWorkers : Nat → StartDecision
  | workers : Int → Nat → StartDecision
  deriving DecidableEq, Repr

/-- Startup decision made by `main`: either return immediately with the
existing artifact count as the final count, or start a number of worker
threads sharing a counter initialised to the existing count.  The
requested total is an `Int` because the CLI accepts any integer. -/
def mainPlan (total : Int) (existing : Nat) : StartDecision :=
  if (existing : Int) ≥ total then StartDecision.noWorkers existing
  else StartDecision.workers (min (MAX_THREADS : Int) (total - existing)) existing

/-- C4: if the pre-existing artifact count reaches the target, the
coordinator returns immediately with zero workers started and final
count equal to the existing count; otherwise it starts exactly
`min(MAX_THREADS, total - existing)` workers — at least one — all
sharing one counter initialised to the existing count. -/
theorem coordinator_startup (total : Int) (existing : Nat) :
    (total ≤ (existing : Int) →
      mainPlan total existing = StartDecision.noWorkers existing)
    ∧ ((existing : Int) < total →
        mainPlan total existing
          = StartDecision.workers (min (MAX_THREADS : Int) (total - existing))
              existing
        ∧ 1 ≤ min (MAX_THREADS : Int) (total - existing)) := by
  constructor
  · intro h; simp only [mainPlan]; rw [if_pos h]
  · intro h
    constructor
    · simp only [mainPlan]; rw [if_neg (by omega)]
    · have h30 : (1 : Int) ≤ (MAX_THREADS : Int) := by norm_num [MAX_THREADS]
      exact le_min h30 (by omega)

/-- Concrete instantiations of the coordinator startup behaviour. -/
theorem coordinator_startup_witness :
    mainPlan 5 5 = StartDecision.noWorkers 5
    ∧ mainPlan 5 2 = StartDecision.workers 3 2 := by
  refine ⟨(coordinator_startup 5 5).1 (by decide), ?_⟩
  have h := ((coordinator_startup 5 2).2 (by decide)).1
  rw [h]; norm_num [MAX_THREADS]

/-! ## One worker's control flow

Embedding of the body of `worker` (`generate.py` lines 81–115) for a
single thread, driven by a script of API-call outcomes.  Each iteration:
check the shared counter against the target and return if met; otherwise
consume one outcome.  Request errors, JSON decode failures and schema
violations are caught by the two `try`/`except` blocks and loop.  The
persist block (lines 104–112) is not inside any `try`: an exception
raised by `open` there propagates out of the worker, which the
`valid true` outcome models. -/

inductive Outcome where
  | reqErr : Outcome
  | decodeErr : Outcome
  | schemaErr : Outcome
  | valid : Bool → Outcome
  deriving DecidableEq, Repr

inductive RunResult where
  | done : Nat → Nat → RunResult
  | crashed : Nat → Nat → RunResult
  | outOfScript : Nat → Nat → RunResult
  deriving DecidableEq, Repr

/-- Run one worker to completion on a finite outcome script, tracking the
shared count and the number of artifact files written.  `done` is the
normal return, `crashed` an uncaught exception, `outOfScript` the worker
still looping when the script ends. -/
def workerRun (target count files : Nat) (os : List Outcome) : RunResult :=
  if target ≤ count then .done count files
  else
    match os with
    | [] => .outOfScript count files
    | .reqErr :: rest => workerRun target count files rest
    | .decodeErr :: rest => workerRun target count files rest
    | .schemaErr :: rest => workerRun target count files rest
    | .valid pr :: rest =>
        if count < target then
          if pr then .crashed count files
          else workerRun target (count + 1) (files + 1) rest
        else .done count files

/-- A script with no persist failure never crashes the worker. -/
theorem workerRun_no_crash (target : Nat) (os : List Outcome) :
    ∀ count files, (∀ o ∈ os, o ≠ Outcome.valid true) →
      ∀ c f, workerRun target count files os ≠ RunResult.crashed c f := by
  induction os with
  | nil =>
      intro count files _ c f
      rw [workerRun.eq_def]
      split <;> simp
  | cons o rest ih =>
      intro count files h c f
      have hrest : ∀ o ∈ rest, o ≠ Outcome.valid true :=
        fun o ho => h o (List.mem_cons_of_mem _ ho)
      rw [workerRun.eq_def]
      split
      · simp
      · cases o with
        | reqErr => exact ih count files hrest c f
        | decodeErr => exact ih count files hrest c f
        | schemaErr => exact ih count files hrest c f
        | valid pr =>
            cases pr with
            | false =>
                dsimp only
                split
                · exact ih (count + 1) (files + 1) hrest c f
                · simp
            | true => exact absurd rfl (h _ (List.mem_cons_self _ _))

/-- The worker returns normally only with the target met. -/
theorem workerRun_done_le (target : Nat) (os : List Outcome) :
    ∀ count files c f,
      workerRun target count files os = RunResult.done c f → target ≤ c := by
  induction os with
  | nil =>
      intro count files c f h
      rw [workerRun.eq_def] at h
      split at h
      · injection h with h1 _; omega
      · simp at h
  | cons o rest ih =>
      intro count files c f h
      rw [workerRun.eq_def] at h
      split at h
      · injection h with h1 _; omega
      · cases o with
        | reqErr => exact ih count files c f h
        | decodeErr => exact ih count files c f h
        | schemaErr => exact ih count files c f h
        | valid pr =>
            dsimp only at h
            split at h
            · cases pr with
              | false => exact ih (count + 1) (files + 1) c f h
              | true => simp at h
            · injection h with h1 _; omega

/-- C3 (counterexample): a worker that reaches the persist step and hits
an error while writing the artifact terminates by an uncaught exception
with the shared count still below the target — not via the Done path. -/
theorem worker_persist_error_uncaught :
    workerRun 1 0 0 [Outcome.valid true] = RunResult.crashed 0 0
    ∧ RunResult.crashed 0 0 ≠ RunResult.done 0 0
    ∧ (0 : Nat) < 1 :=
  ⟨rfl, by decide, by decide⟩

/-- C3 (amended): request errors, JSON decode failures and schema
violations are caught and loop the worker back to the target check, and
any worker that exits via the Done path has observed count ≥ target; but
an error raised while persisting an accepted output is not caught and
terminates the worker abnormally — absent such persist errors no crash
is possible. -/
theorem worker_error_handling (target count files : Nat) (os : List Outcome) :
    ((∀ o ∈ os, o ≠ Outcome.valid true) →
      ∀ c f, workerRun target count files os ≠ RunResult.crashed c f)
    ∧ (∀ c f, workerRun target count files os = RunResult.done c f → target ≤ c)
    ∧ (count < target →
        workerRun target count files (Outcome.reqErr :: os)
            = workerRun target count files os
        ∧ workerRun target count files (Outcome.decodeErr :: os)
            = workerRun target count files os
        ∧ workerRun target count files (Outcome.schemaErr :: os)
            = workerRun target count files os) := by
  refine ⟨workerRun_no_crash target os count files,
          workerRun_done_le target os count files, ?_⟩
  intro hc
  have hn : ¬ target ≤ count := by omega
  refine ⟨?_, ?_, ?_⟩ <;> (conv_lhs => rw [workerRun.eq_def]) <;> rw [if_neg hn]

/-- Concrete instantiation of the worker error-handling behaviour. -/
theorem worker_error_handling_witness :
    workerRun 1 0 0 [Outcome.reqErr, Outcome.valid false] ≠ RunResult.crashed 0 0
    ∧ (1 : Nat) ≤ 1
    ∧ workerRun 1 0 0 (Outcome.reqErr :: [Outcome.valid false])
        = workerRun 1 0 0 [Outcome.valid false] :=
  ⟨(worker_error_handling 1 0 0 [Outcome.reqErr, Outcome.valid false]).1
      (by decide) 0 0,
   (worker_error_handling 1 0 0 [Outcome.reqErr, Outcome.valid false]).2.1 1 1
      (by rfl),
   ((worker_error_handling 1 0 0 [Outcome.valid false]).2.2 (by decide)).1⟩

/-! ## The worker pool as a labelled transition system

Interleaving semantics of `worker` (`generate.py` lines 81–115) for any
number of threads sharing the counter and its lock.  Each worker is at
one of five control points: about to take the lock for the target check
(`checking`), inside the API-call/parse/validate block (`calling`),
about to take the lock for the commit (`committing`), returned normally
(`done`), or dead from the uncaught exception the persist block can
raise (`crashed`, see `workerRun` for the single-worker refinement of
that path).  The two lock-protected blocks are single atomic
transitions; everything between them is interleavable.  A successful
commit creates exactly one artifact file; a crash commits nothing and
persists no valid output. -/

inductive WState where
  | checking : WState
  | calling : WState
  | committing : WState
  | done : WState
  | crashed : WState
  deriving DecidableEq, Repr

/-- Global state: the shared counter, the number of artifact files
created by this run, and every worker's control point. -/
structure Config where
  count : Nat
  files : Nat
  workers : List WState
  deriving DecidableEq, Repr

inductive Kind where
  | exitAtCheck : Kind
  | proceed : Kind
  | callFails : Kind
  | callValid : Kind
  | commitOk : Kind
  | commitReject : Kind
  | persistCrash : Kind
  deriving DecidableEq, Repr

/-- One interleaved step of some worker `i`.  `exitAtCheck` and `proceed`
are the lock-protected target check (lines 83–85); `callFails` folds the
request, decode and schema failure paths (lines 88–101); `callValid` is
a candidate that parsed and validated; `commitOk` and `commitReject` are
the lock-protected commit block (lines 104–115), where `commitOk` writes
one file and increments the counter by one; `persistCrash` is an
exception raised by `open` inside that block — which sits outside every
`try` — propagating before the counter is touched and killing the
worker. -/
inductive Step (target : Nat) : Kind → Config → Config → Prop where
  | exitAtCheck (count files : Nat) (ws : List WState) (i : Nat)
      (hw : ws[i]? = some WState.checking) (hc : target ≤ count) :
      Step target Kind.exitAtCheck ⟨count, files, ws⟩
        ⟨count, files, ws.set i WState.done⟩
  | proceed (count files : Nat) (ws : List WState) (i : Nat)
      (hw : ws[i]? = some WState.checking) (hc : count < target) :
      Step target Kind.proceed ⟨count, files, ws⟩
        ⟨count, files, ws.set i WState.calling⟩
  | callFails (count files : Nat) (ws : List WState) (i : Nat)
      (hw : ws[i]? = some WState.calling) :
      Step target Kind.callFails ⟨count, files, ws⟩
        ⟨count, files, ws.set i WState.checking⟩
  | callValid (count files : Nat) (ws : List WState) (i : Nat)
      (hw : ws[i]? = some WState.calling) :
      Step target Kind.callValid ⟨count, files, ws⟩
        ⟨count, files, ws.set i WState.committing⟩
  | commitOk (count files : Nat) (ws : List WState) (i : Nat)
      (hw : ws[i]? = some WState.committing) (hc : count < target) :
      Step target Kind.commitOk ⟨count, files, ws⟩
        ⟨count + 1, files + 1, ws.set i WState.checking⟩
  | commitReject (count files : Nat) (ws : List WState) (i : Nat)
      (hw : ws[i]? = some WState.committing) (hc : target ≤ count) :
      Step target Kind.commitReject ⟨count, files, ws⟩
        ⟨count, files, ws.set i WState.done⟩
  | persistCrash (count files : Nat) (ws : List WState) (i : Nat)
      (hw : ws[i]? = some WState.committing) (hc : count < target) :
      Step target Kind.persistCrash ⟨count, files, ws⟩
        ⟨count, files, ws.set i WState.crashed⟩

/-- Reachability through any interleaving of worker steps. -/
def Reach (target : Nat) : Config → Config → Prop :=
  Relation.ReflTransGen fun a b => ∃ k, Step target k a b

/-- Initial state of a run: counter at the pre-existing artifact count,
no files written yet, `n` workers about to do their first target check. -/
def initConfig (a n : Nat) : Config :=
  ⟨a, 0, List.replicate n WState.checking⟩

/-- Inductive invariant of the pool. -/
def PoolInv (target a n : Nat) (s : Config) : Prop :=
  a ≤ s.count ∧ s.count ≤ target ∧ s.files + a = s.count
    ∧ s.workers.length = n
    ∧ (WState.done ∈ s.workers → target ≤ s.count)

theorem poolInv_init (target a n : Nat) (ha : a ≤ target) :
    PoolInv target a n (initConfig a n) := by
  refine ⟨le_refl a, ha, by simp [initConfig], by simp [initConfig], ?_⟩
  intro h
  have := List.eq_of_mem_replicate h
  simp at this

theorem poolInv_step {target a n : Nat} {k : Kind} {s s' : Config}
    (hi : PoolInv target a n s) (hs : Step target k s s') :
    PoolInv target a n s' := by
  obtain ⟨h1, h2, h3, h4, h5⟩ := hi
  cases hs with
  | exitAtCheck count files ws i hw hc =>
      exact ⟨h1, h2, h3, by simpa using h4, fun _ => hc⟩
  | proceed count files ws i hw hc =>
      refine ⟨h1, h2, h3, by simpa using h4, fun hm => ?_⟩
      rcases List.mem_or_eq_of_mem_set hm with hm' | hm'
      · exact h5 hm'
      · simp at hm'
  | callFails count files ws i hw =>
      refine ⟨h1, h2, h3, by simpa using h4, fun hm => ?_⟩
      rcases List.mem_or_eq_of_mem_set hm with hm' | hm'
      · exact h5 hm'
      · simp at hm'
  | callValid count files ws i hw =>
      refine ⟨h1, h2, h3, by simpa using h4, fun hm => ?_⟩
      rcases List.mem_or_eq_of_mem_set hm with hm' | hm'
      · exact h5 hm'
      · simp at hm'
  | commitOk count files ws i hw hc =>
      refine ⟨?_, ?_, ?_, by simpa using h4, fun hm => ?_⟩
      · simp at h1 ⊢; omega
      · simp at h2 ⊢; omega
      · simp at h3 ⊢; omega
      · rcases List.mem_or_eq_of_mem_set hm with hm' | hm'
        · have := h5 hm'; simp at this ⊢; omega
        · simp at hm'
  | commitReject count files ws i hw hc =>
      exact ⟨h1, h2, h3, by simpa using h4, fun _ => hc⟩
  | persistCrash count files ws i hw hc =>
      refine ⟨h1, h2, h3, by simpa using h4, fun hm => ?_⟩
      rcases List.mem_or_eq_of_mem_set hm with hm' | hm'
      · exact h5 hm'
      · simp at hm'

theorem reach_poolInv {target a n : Nat} {s : Config} (ha : a ≤ target)
    (h : Reach target (initConfig a n) s) : PoolInv target a n s := by
  induction h with
  | refl => exact poolInv_init target a n ha
  | tail _ hstep ih =>
      obtain ⟨k, hk⟩ := hstep
      exact poolInv_step ih hk

/-- The counter moves by exactly one on a successful commit and is
unchanged by every other step. -/
theorem step_count_eq {target : Nat} {k : Kind} {s s' : Config}
    (h : Step target k s s') :
    s'.count = if k = Kind.commitOk then s.count + 1 else s.count := by
  cases h <;> rfl

/-- C1: in every run and under every interleaving of workers, the shared
count stays between the initial value and the target, the number of
artifact files created equals the count's progress and so never exceeds
`target - alreadyPersisted` (for any number of workers, in particular
more than the remaining work), and each step changes the count by
exactly one precisely when it is a successful commit, never decreasing
it. -/
theorem ledger_invariant (target a n : Nat) (ha : a ≤ target) (s : Config)
    (h : Reach target (initConfig a n) s) :
    (a ≤ s.count ∧ s.count ≤ target ∧ s.files + a = s.count
      ∧ s.files ≤ target - a)
    ∧ ∀ k s', Step target k s s' →
        s.count ≤ s'.count ∧ (s'.count = s.count + 1 ↔ k = Kind.commitOk) := by
  have hi := reach_poolInv ha h
  obtain ⟨h1, h2, h3, _, _⟩ := hi
  refine ⟨⟨h1, h2, h3, by omega⟩, ?_⟩
  intro k s' hs
  have he := step_count_eq hs
  by_cases hk : k = Kind.commitOk
  · rw [hk] at he ⊢
    simp at he
    exact ⟨by omega, by simp [he]⟩
  · simp [hk] at he; constructor
    · omega
    · simp [hk]; omega

/-- Concrete instantiation of the ledger invariant at the initial state. -/
theorem ledger_invariant_witness :
    (0 : Nat) ≤ 1
    ∧ (initConfig 0 1).count ≤ 1
    ∧ (initConfig 0 1).files ≤ 1 - 0 := by
  have h := ledger_invariant 1 0 1 (by decide) (initConfig 0 1)
    Relation.ReflTransGen.refl
  exact ⟨by decide, h.1.2.1, h.1.2.2.2⟩

/-- Whether a worker thread has stopped running, for any reason. -/
def isTerminated : WState → Bool
  | WState.done => true
  | WState.crashed => true
  | _ => false

/-- C2 (counterexample): a run with target 1, no pre-existing artifacts
and one worker, in which the Generation Client produces a schema-valid
candidate (the `callValid` step), but the worker dies to the uncaught
persist exception: every worker has terminated — so the coordinator's
`join` returns — yet the final shared count is 0, not the target.  Not
every worker exit path requires count ≥ target: the crash exit happens
at count 0 < 1. -/
theorem run_terminates_below_target :
    Reach 1 (initConfig 0 1) (Config.mk 0 0 [WState.crashed])
    ∧ isTerminated WState.crashed = true
    ∧ Config.count (Config.mk 0 0 [WState.crashed]) = 0
    ∧ (0 : Nat) ≠ 1 := by
  refine ⟨?_, rfl, rfl, by decide⟩
  refine Relation.ReflTransGen.head
    ⟨Kind.proceed, Step.proceed 0 0 [WState.checking] 0 rfl (by decide)⟩ ?_
  refine Relation.ReflTransGen.head
    ⟨Kind.callValid, Step.callValid 0 0 [WState.calling] 0 rfl⟩ ?_
  exact Relation.ReflTransGen.head
    ⟨Kind.persistCrash, Step.persistCrash 0 0 [WState.committing] 0 rfl
      (by decide)⟩
    Relation.ReflTransGen.refl

/-- C2 (amended): whichever interleaving occurred, if a run that started
with outstanding work and at least one worker reaches a state where
every worker has terminated normally — exited via the Done path rather
than dying to an uncaught persist error — then the final shared count
equals the target: both Done exit paths require the count to have
reached the target, and the count never passes it.  A run whose workers
crash while persisting can terminate below the target. -/
theorem run_completes_at_target (target a n : Nat) (ha : a < target)
    (hn : 1 ≤ n) (s : Config) (h : Reach target (initConfig a n) s)
    (hdone : ∀ w ∈ s.workers, w = WState.done) : s.count = target := by
  have hi := reach_poolInv (le_of_lt ha) h
  obtain ⟨_, h2, _, h4, h5⟩ := hi
  have hne : s.workers ≠ [] := by
    intro he; rw [he] at h4; simp at h4; omega
  obtain ⟨w, hw⟩ := List.exists_mem_of_ne_nil s.workers hne
  have hmem : WState.done ∈ s.workers := (hdone w hw) ▸ hw
  have := h5 hmem
  omega

/-- Concrete terminating run for one worker and target 1: check, call,
validate, commit (count 0 → 1, one file written), re-check, exit. -/
theorem run_completes_at_target_witness :
    (0 : Nat) < 1 ∧ (Config.mk 1 1 [WState.done]).count = 1 := by
  refine ⟨by decide, run_completes_at_target 1 0 1 (by decide) (le_refl 1)
    (Config.mk 1 1 [WState.done]) ?_ ?_⟩
  · refine Relation.ReflTransGen.head
      ⟨Kind.proceed, Step.proceed 0 0 [WState.checking] 0 rfl (by decide)⟩ ?_
    refine Relation.ReflTransGen.head
      ⟨Kind.callValid, Step.callValid 0 0 [WState.calling] 0 rfl⟩ ?_
    refine Relation.ReflTransGen.head
      ⟨Kind.commitOk, Step.commitOk 0 0 [WState.committing] 0 rfl (by decide)⟩ ?_
    refine Relation.ReflTransGen.head
      ⟨Kind.exitAtCheck, Step.exitAtCheck 1 1 [WState.checking] 0 rfl (by decide)⟩
      Relation.ReflTransGen.refl
  · intro w hw
    simpa using hw

/-! ## The XES exporter

Embedding of `load_json_traces` and `build_event_log` (`src/xes.py`). -/

/-- Python datetimes as stored in events: calendar fields plus an
optional UTC offset in minutes (`none` is a naive datetime). -/
structure PyDateTime where
  year : Nat
  month : Nat
  day : Nat
  hour : Nat
  minute : Nat
  second : Nat
  tzOffsetMinutes : Option Int
  deriving DecidableEq, Repr

/-- Parse exactly `n` decimal digits. -/
def parseFixed : Nat → Nat → List Char → Option (Nat × List Char)
  | 0, acc, cs => some (acc, cs)
  | n + 1, acc, c :: cs =>
      if c.isDigit then parseFixed n (acc * 10 + (c.toNat - 48)) cs else none
  | _ + 1, _, [] => none

def expectChar (c : Char) : List Char → Option (List Char)
  | d :: cs => if d = c then some cs else none
  | [] => none

def isLeapYear (y : Nat) : Bool :=
  (y % 4 == 0 && y % 100 != 0) || y % 400 == 0

def daysInMonth (y m : Nat) : Nat :=
  if m = 2 then (if isLeapYear y then 29 else 28)
  else if m = 4 ∨ m = 6 ∨ m = 9 ∨ m = 11 then 30
  else 31

/-- Trailing UTC-offset part of an ISO-8601 timestamp. -/
def parseOffset : List Char → Option (Option Int × List Char)
  | '+' :: r => do
      let (oh, r) ← parseFixed 2 0 r
      let r ← expectChar ':' r
      let (om, r) ← parseFixed 2 0 r
      if oh ≤ 23 ∧ om ≤ 59 then pure (some ((oh * 60 + om : Nat) : Int), r)
      else none
  | '-' :: r => do
      let (oh, r) ← parseFixed 2 0 r
      let r ← expectChar ':' r
      let (om, r) ← parseFixed 2 0 r
      if oh ≤ 23 ∧ om ≤ 59 then pure (some (-((oh * 60 + om : Nat) : Int)), r)
      else none
  | r => some (none, r)

/-- Modelled from the spec: Python's `datetime.fromisoformat` (standard
library, not part of this repository's sources), restricted to the
`YYYY-MM-DDTHH:MM:SS` shape with an optional `±HH:MM` offset that the
exporter's normalized timestamp strings take; anything else fails, as
`fromisoformat` raises `ValueError`. -/
def parseIso (s : String) : Option PyDateTime := do
  let (y, r) ← parseFixed 4 0 s.toList
  let r ← expectChar '-' r
  let (mo, r) ← parseFixed 2 0 r
  let r ← expectChar '-' r
  let (d, r) ← parseFixed 2 0 r
  let r ← expectChar 'T' r
  let (h, r) ← parseFixed 2 0 r
  let r ← expectChar ':' r
  let (mi, r) ← parseFixed 2 0 r
  let r ← expectChar ':' r
  let (se, r) ← parseFixed 2 0 r
  let (off, r) ← parseOffset r
  if r = [] ∧ 1 ≤ mo ∧ mo ≤ 12 ∧ 1 ≤ d ∧ d ≤ daysInMonth y mo
      ∧ h ≤ 23 ∧ mi ≤ 59 ∧ se ≤ 59 then
    pure ⟨y, mo, d, h, mi, se, off⟩
  else none

/-- Python `s.endswith(suffix)`. -/
def strEndsWith (s suffix : String) : Bool :=
  suffix.toList.isSuffixOf s.toList

/-- Python `s[:-n]` for positive `n` not exceeding the length. -/
def strDropRight (s : String) (n : Nat) : String :=
  String.mk (s.toList.take (s.toList.length - n))

def replCharList (c : Char) (repl : List Char) : List Char → List Char
  | [] => []
  | a :: as =>
      if a = c then repl ++ replCharList c repl as
      else a :: replCharList c repl as

/-- Python `s.replace(c, repl)` for a single-character pattern. -/
def strReplaceChar (c : Char) (repl : String) (s : String) : String :=
  String.mk (replCharList c repl.toList s.toList)

/-- First normalization (`xes.py` lines 73–74): rewrite a trailing
`+00:00` to `Z` for UTC representation. -/
def tsRewrite (ts : String) : String :=
  if strEndsWith ts "+00:00" then strDropRight ts 6 ++ "Z" else ts

/-- Second normalization (`xes.py` line 76): convert `Z` back to
`+00:00` for parsing. -/
def tsParseStr (ts1 : String) : String :=
  if strEndsWith ts1 "Z" then strReplaceChar 'Z' "+00:00" ts1 else ts1

/-- Value of a processed event attribute: a JSON value, or the datetime
a successfully parsed timestamp string was replaced with. -/
inductive EvVal where
  | js : Json → EvVal
  | time : PyDateTime → EvVal

def toEvVals (ev : List (String × Json)) : List (String × EvVal) :=
  ev.map fun p => (p.1, EvVal.js p.2)

/-- Key renaming of `build_event_log` (`xes.py` lines 64–67):
`activity` → `concept:name` and `timestamp` → `time:timestamp`, each by
`pop` followed by assignment. -/
def renameEventKeys (ev : List (String × Json)) : List (String × Json) :=
  let ev1 :=
    match lookupA ev "activity" with
    | some v => setKey (removeKey ev "activity") "concept:name" v
    | none => ev
  match lookupA ev1 "timestamp" with
  | some v => setKey (removeKey ev1 "timestamp") "time:timestamp" v
  | none => ev1

/-- One event through `build_event_log` (`xes.py` lines 62–85): rename
keys, then, when `time:timestamp` holds a string, normalize its suffix
and try to parse it, replacing it with the datetime on success and
leaving the original string untouched on `ValueError`. -/
def processEvent (ev : List (String × Json)) : List (String × EvVal) :=
  let ev1 := renameEventKeys ev
  match lookupA ev1 "time:timestamp" with
  | some (Json.str ts) =>
      match parseIso (tsParseStr (tsRewrite ts)) with
      | some d => setKey (toEvVals ev1) "time:timestamp" (EvVal.time d)
      | none => toEvVals ev1
  | _ => toEvVals ev1

/-- The `cluster` case attribute `load_json_traces` extracts: Python's
`data.get('cluster')` maps a JSON `null` to `None` as well. -/
def clusterField (kvs : List (String × Json)) : Option Json :=
  match lookupA kvs "cluster" with
  | some Json.null => none
  | some v => some v
  | none => none

/-- Outcome of `load_json_traces` for one decoded artifact file: either
one trace's events and optional cluster, or the file is skipped with a
warning. -/
inductive TraceOut where
  | yielded : List Json → Option Json → TraceOut
  | skipped : TraceOut

/-- Per-file logic of `load_json_traces` (`xes.py` lines 34–48) after a
successful `json.load`: an object with a list-valued `events` key yields
those events, a top-level array yields itself as the events, and
anything else is skipped. -/
def loadTrace (data : Json) : TraceOut :=
  match data with
  | Json.obj kvs =>
      match lookupA kvs "events" with
      | some (Json.arr xs) => TraceOut.yielded xs (clusterField kvs)
      | _ => TraceOut.skipped
  | Json.arr xs => TraceOut.yielded xs none
  | _ => TraceOut.skipped

/-- A trace of the constructed event log: `concept:name`, the optional
`cluster` case attribute, and the processed events. -/
structure PTrace where
  name : String
  cluster : Option Json
  events : List (List (String × EvVal))

def evAsObj : Json → Option (List (String × Json))
  | Json.obj kvs => some kvs
  | _ => none

def evsAsObjs : List Json → Option (List (List (String × Json)))
  | [] => some []
  | j :: rest =>
      match evAsObj j, evsAsObjs rest with
      | some o, some os => some (o :: os)
      | _, _ => none

/-- One trace of `build_event_log` (`xes.py` lines 55–87).  `none` means
no trace is built: the file was skipped upstream, or an event is not a
JSON object (on which the Python code raises). -/
def buildTrace (traceId : String) (tr : TraceOut) : Option PTrace :=
  match tr with
  | TraceOut.yielded evs cluster =>
      match evsAsObjs evs with
      | some objs => some ⟨traceId, cluster, objs.map processEvent⟩
      | none => none
  | TraceOut.skipped => none

theorem evsAsObjs_length {l : List Json} {os : List (List (String × Json))}
    (h : evsAsObjs l = some os) : os.length = l.length := by
  induction l generalizing os with
  | nil => cases h; rfl
  | cons j rest ih =>
      rw [evsAsObjs] at h
      cases hj : evAsObj j with
      | none => rw [hj] at h; simp at h
      | some o =>
          rw [hj] at h
          cases hr : evsAsObjs rest with
          | none => rw [hr] at h; simp at h
          | some os' =>
              rw [hr] at h
              cases h
              simp [ih hr]

/-- C6 (counterexample): an artifact file that decodes to a JSON object
without an `events` list does not yield a trace — `load_json_traces`
skips it with a warning, so the exporter produces no trace for it. -/
theorem object_without_events_skipped :
    loadTrace (Json.obj []) = TraceOut.skipped
    ∧ buildTrace "t" (loadTrace (Json.obj [])) = none :=
  ⟨rfl, rfl⟩

/-- C6 (amended): each JSON artifact file yields at most one case/trace,
and the `cluster` attribute is optional; but an `events` list is not:
an object file without a list-valued `events` key is skipped and yields
no trace, while an object with one yields exactly one trace carrying
those events (with or without `cluster`). -/
theorem load_json_traces_events_required (kvs : List (String × Json)) :
    (lookupA kvs "events" = none → loadTrace (Json.obj kvs) = TraceOut.skipped)
    ∧ (∀ xs, lookupA kvs "events" = some (Json.arr xs) →
        loadTrace (Json.obj kvs) = TraceOut.yielded xs (clusterField kvs))
    ∧ (∀ xs, lookupA kvs "events" = some (Json.arr xs) →
        lookupA kvs "cluster" = none →
        loadTrace (Json.obj kvs) = TraceOut.yielded xs none) := by
  refine ⟨?_, ?_, ?_⟩
  · intro h; simp only [loadTrace]; rw [h]
  · intro xs h; simp only [loadTrace]; rw [h]
  · intro xs h hc
    simp only [loadTrace, clusterField]
    rw [h, hc]

/-- Concrete instantiations of the events-list requirement. -/
theorem load_json_traces_events_required_witness :
    loadTrace (Json.obj [("foo", Json.num 1)]) = TraceOut.skipped
    ∧ loadTrace (Json.obj [("events", Json.arr [])])
        = TraceOut.yielded [] none :=
  ⟨(load_json_traces_events_required [("foo", Json.num 1)]).1 rfl,
   (load_json_traces_events_required [("events", Json.arr [])]).2.2 [] rfl rfl⟩

/-- The artifact of the spec's exporter remapping scenario. -/
def artifactC7 : Json :=
  Json.obj [("events", Json.arr [Json.obj
    [("activity", Json.str "A"),
     ("timestamp", Json.str "2024-01-01T00:00:00+00:00")]])]

/-- The instant 2024-01-01T00:00:00Z (offset zero is UTC). -/
def dtC7 : PyDateTime :=
  { year := 2024, month := 1, day := 1, hour := 0, minute := 0, second := 0,
    tzOffsetMinutes := some 0 }

/-- C7: the artifact `{"events":[{"activity":"A","timestamp":"2024-01-01T00:00:00+00:00"}]}`
yields exactly one trace with exactly one event whose `concept:name` is
`"A"` and whose `time:timestamp` is the instant 2024-01-01T00:00:00Z;
along the way the `+00:00` suffix is normalized to the `Z`
representation. -/
theorem exporter_remapping_scenario :
    parseJson "\x7b\"events\": [\x7b\"activity\": \"A\", \"timestamp\": \"2024-01-01T00:00:00+00:00\"\x7d]\x7d"
      = some artifactC7
    ∧ buildTrace "case0" (loadTrace artifactC7)
        = some { name := "case0", cluster := none,
                 events := [[("concept:name", EvVal.js (Json.str "A")),
                             ("time:timestamp", EvVal.time dtC7)]] }
    ∧ tsRewrite "2024-01-01T00:00:00+00:00" = "2024-01-01T00:00:00Z"
    ∧ parseIso "2024-01-01T00:00:00+00:00" = some dtC7
    ∧ dtC7.tzOffsetMinutes = some 0 :=
  ⟨rfl, rfl, rfl, rfl, rfl⟩

theorem lookupA_toEvVals (l : List (String × Json)) (k : String) :
    lookupA (toEvVals l) k = (lookupA l k).map EvVal.js := by
  induction l with
  | nil => rfl
  | cons p rest ih =>
      by_cases h : p.1 = k
      · simp [toEvVals, lookupA, h]
      · simpa [toEvVals, lookupA, h] using ih

/-- C9: an event whose `time:timestamp` value is a string that fails
ISO-8601 parsing keeps its original, unmodified string — not the
suffix-rewritten variant — as the canonical timestamp attribute, and
the event is not dropped (every event of a trace is appended). -/
theorem timestamp_fallback_keeps_original (ev : List (String × Json))
    (ts : String)
    (hts : lookupA (renameEventKeys ev) "time:timestamp"
        = some (Json.str ts))
    (hfail : parseIso (tsParseStr (tsRewrite ts)) = none) :
    lookupA (processEvent ev) "time:timestamp"
        = some (EvVal.js (Json.str ts))
    ∧ ∀ evs : List (List (String × Json)),
        (evs.map processEvent).length = evs.length := by
  constructor
  · simp only [processEvent]
    rw [hts]
    dsimp only
    rw [hfail, lookupA_toEvVals, hts]
    rfl
  · intro evs; simp

/-- Concrete instantiation of the timestamp fallback: the rewritten
variant `garbageZ` is parsed (as `garbage+00:00`), fails, and the event
keeps the original string. -/
theorem timestamp_fallback_keeps_original_witness :
    lookupA (processEvent [("timestamp", Json.str "garbage+00:00")])
        "time:timestamp"
      = some (EvVal.js (Json.str "garbage+00:00")) :=
  (timestamp_fallback_keeps_original
    [("timestamp", Json.str "garbage+00:00")] "garbage+00:00" rfl rfl).1

/-- C10: an artifact file whose top-level JSON value is an array is
treated as the case's events list itself, and the resulting trace has
no cluster attribute. -/
theorem array_artifact_is_events_list (xs : List Json) :
    loadTrace (Json.arr xs) = TraceOut.yielded xs none
    ∧ (∀ cid t, buildTrace cid (loadTrace (Json.arr xs)) = some t →
        t.cluster = none ∧ t.events.length = xs.length) := by
  refine ⟨rfl, ?_⟩
  intro cid t h
  simp only [loadTrace, buildTrace] at h
  cases hobjs : evsAsObjs xs with
  | none => rw [hobjs] at h; simp at h
  | some objs =>
      rw [hobjs] at h
      cases h
      simp [evsAsObjs_length hobjs]

/-- Concrete instantiation: a one-event array artifact. -/
theorem array_artifact_is_events_list_witness :
    loadTrace (Json.arr [Json.obj []]) = TraceOut.yielded [Json.obj []] none
    ∧ PTrace.cluster { name := "c", cluster := none, events := [[]] } = none
    ∧ (PTrace.events { name := "c", cluster := none, events := [[]] }).length
        = 1 := by
  have h := (array_artifact_is_events_list [Json.obj []]).2 "c"
    { name := "c", cluster := none, events := [[]] } rfl
  exact ⟨(array_artifact_is_events_list [Json.obj []]).1, h.1, h.2⟩

end TextDatasets
